import Mathlib

/-!
Shallow embedding of the ensogrow-service backend (plant controllers and
domain model), translated from the TypeScript source:

* `src/controllers/plantController.ts` — recommendation generation,
  activation toggle, step completion, plant detail, image diagnosis;
* `src/controllers/plantRecommendationController.ts` — bulk
  recommendation aggregation (sort by success rate, top 5);
* the custom-plant controller (`getCustomPlantRecommendation`);
* `src/models/Plant.ts`, `src/models/User.ts` — the document shapes.

JavaScript-specific behaviour (truthiness, `String(...)` coercion,
`parseInt`, the greedy `[[\s\S]*]` regex scan, `Array.prototype.sort`
with a numeric comparator) is modelled explicitly below, each function
next to a comment naming the source lines it embeds.
-/

set_option linter.unusedVariables false

/-- JSON values as produced by `JSON.parse` on the Gemini response text.
Numbers are modelled as integers (the service only ever inspects
integer-valued fields such as ids and the `0` literal). -/
inductive Json where
  | jnull : Json
  | jbool : Bool → Json
  | jnum : Int → Json
  | jstr : String → Json
  | jarr : List Json → Json
  | jobj : List (String × Json) → Json
deriving Repr

/-- JavaScript truthiness of a JSON value: `null`, `false`, `0` and the
empty string are falsy; arrays and objects are always truthy. -/
def Json.truthy : Json → Bool
  | .jnull => false
  | .jbool b => b
  | .jnum n => n != 0
  | .jstr s => s ≠ ""
  | .jarr _ => true
  | .jobj _ => true

/-- Property access `v.k` on a parsed JSON value: defined (first match)
on objects, `none` (JavaScript `undefined`) otherwise. -/
def Json.get : Json → String → Option Json
  | .jobj fs, k => (fs.find? (fun f => f.1 = k)).map (fun f => f.2)
  | _, _ => none

/-- Truthiness of a possibly-undefined value (`undefined` is falsy). -/
def jsTruthy : Option Json → Bool
  | some v => v.truthy
  | none => false

mutual
/-- The JavaScript `String(...)` coercion: `null ↦ "null"`,
`true ↦ "true"`, `false ↦ "false"`, numbers to decimal text, arrays to
their comma-joined elements (with `null` elements as empty text),
objects to `"[object Object]"`. -/
def Json.jsToString : Json → String
  | .jnull => "null"
  | .jbool true => "true"
  | .jbool false => "false"
  | .jnum n => toString n
  | .jstr s => s
  | .jarr xs => String.intercalate "," (Json.jsArrElems xs)
  | .jobj _ => "[object Object]"

/-- Element strings of `Array.prototype.toString`: `null` and
`undefined` elements render as the empty string. -/
def Json.jsArrElems : List Json → List String
  | [] => []
  | x :: xs =>
    (match x with
     | .jnull => ""
     | v => Json.jsToString v) :: Json.jsArrElems xs
end

/-- The `x || ''` defaulting used on step fields
(`plantController.ts:141-143`, custom controller lines 136-138): a falsy
or missing value is replaced by the empty string. -/
def jsOrEmpty : Option Json → Json
  | some v => if v.truthy then v else .jstr ""
  | none => .jstr ""

/-- JavaScript `.trim()` on a character list: strip leading and
trailing whitespace. -/
def trimChars (cs : List Char) : List Char :=
  ((cs.dropWhile Char.isWhitespace).reverse.dropWhile Char.isWhitespace).reverse

/-- JavaScript `.trim()` on a string (ASCII whitespace model). -/
def jsTrim (s : String) : String :=
  String.mk (trimChars s.toList)

/-- One growth step of a persisted plant
(`src/models/Plant.ts`, the `steps` sub-schema). -/
structure GrowthStep where
  id : Nat
  title : String
  description : String
  estimatedTime : String
  isCompleted : Bool
deriving Repr, DecidableEq

/-- A persisted plant document (`src/models/Plant.ts`). The Mongoose
defaults are `isValid := true`, `isActive := false`. -/
structure Plant where
  plantName : String
  description : String
  successRate : String
  steps : List GrowthStep
  difficultyLevel : String
  isValid : Bool
  isActive : Bool
deriving Repr, DecidableEq

/-- Step processing at plan creation (`plantController.ts:139-145`; the
custom controller lines 134-140 are identical):
`id = index + 1`, each text field is `String(field || '').trim()`, and
`isCompleted` is reset to `false`. -/
def processStep (index : Nat) (step : Json) : GrowthStep :=
  { id := index + 1
    title := jsTrim ((jsOrEmpty (step.get "title")).jsToString)
    description := jsTrim ((jsOrEmpty (step.get "description")).jsToString)
    estimatedTime := jsTrim ((jsOrEmpty (step.get "estimatedTime")).jsToString)
    isCompleted := false }

/-- `rec.steps.map((step, index) => ...)` over the parsed steps array. -/
def processSteps (steps : List Json) : List GrowthStep :=
  steps.mapIdx (fun i s => processStep i s)

/-- The generic validation error thrown at `plantController.ts:120` when
any required field of a candidate recommendation is falsy. -/
def missingFieldsMsg : String := "Missing required fields in recommendation"

/-- Field validation of one candidate recommendation
(`plantController.ts:118-121`): `name`, `description`, `successRate`,
`steps`, `difficultyLevel` and `imageUrl` must all be truthy; any falsy
one triggers the single generic error message. -/
def validateRecommendation (rec : Json) : Option String :=
  if !(jsTruthy (rec.get "name")) || !(jsTruthy (rec.get "description")) ||
     !(jsTruthy (rec.get "successRate")) || !(jsTruthy (rec.get "steps")) ||
     !(jsTruthy (rec.get "difficultyLevel")) || !(jsTruthy (rec.get "imageUrl"))
  then some missingFieldsMsg
  else none

/-- Interpret a JSON value as the array it must be before `.map` can run
on it (`rec.steps.map` would throw on a non-array). -/
def Json.asArray : Json → Option (List Json)
  | .jarr xs => some xs
  | _ => none

/-- `String(...)` coercion of a possibly-undefined value:
`String(undefined)` is the text `"undefined"`. -/
def jsToStringOpt : Option Json → String
  | some v => v.jsToString
  | none => "undefined"

/-- The plant document built and saved per recommendation
(`plantController.ts:148-156`): every top-level field is
`String(field).trim()`, `isValid` is set to `true`, and Mongoose fills
the `isActive` default `false`. Returns `none` when `rec.steps` is not
an array (`rec.steps.map` would throw a `TypeError`). -/
def buildPlant (rec : Json) : Option Plant :=
  ((rec.get "steps").bind Json.asArray).map (fun steps =>
    { plantName := jsTrim (jsToStringOpt (rec.get "name"))
      description := jsTrim (jsToStringOpt (rec.get "description"))
      successRate := jsTrim (jsToStringOpt (rec.get "successRate"))
      steps := processSteps steps
      difficultyLevel := jsTrim (jsToStringOpt (rec.get "difficultyLevel"))
      isValid := true
      isActive := false })

/-- Raw treatment step parsed from the diagnosis response
(`analyzePlantImage`, `plantController.ts:551-557` reads the parsed
`title`, `description`, `estimatedTime` fields with no coercion). -/
structure RawTreatmentStep where
  title : String
  description : String
  estimatedTime : String
deriving Repr, DecidableEq

/-- `plant.steps.slice().reverse().find(step => step.isCompleted)`
(`plantController.ts:545-548`): the last step currently marked
completed. -/
def lastCompletedStep (steps : List GrowthStep) : Option GrowthStep :=
  steps.reverse.find? (fun s => s.isCompleted)

/-- The freshly generated treatment steps
(`plantController.ts:551-557`): `id = plant.steps.length + index + 1`
and `isCompleted = false`. -/
def mkTreatmentSteps (oldLen : Nat) (raw : List RawTreatmentStep) : List GrowthStep :=
  raw.mapIdx (fun i r =>
    { id := oldLen + i + 1
      title := r.title
      description := r.description
      estimatedTime := r.estimatedTime
      isCompleted := false })

/-- The step-list update of the diagnosis flow
(`plantController.ts:560-563`): the list is replaced by
`plant.steps.slice(0, lastCompletedStep ? lastCompletedStep.id : 0)`
followed by the new treatment steps. -/
def diagnoseMergeSteps (steps : List GrowthStep) (raw : List RawTreatmentStep) : List GrowthStep :=
  steps.take (match lastCompletedStep steps with
              | some s => s.id
              | none => 0)
    ++ mkTreatmentSteps steps.length raw

/-- The in-place step mutation of `markStepAsCompleted`
(`plantController.ts:317-323`): the first step whose id equals the
requested one gets `isCompleted := true`; everything else is untouched. -/
def markStepInList (stepId : Nat) : List GrowthStep → List GrowthStep
  | [] => []
  | s :: rest =>
    if s.id = stepId then { s with isCompleted := true } :: rest
    else s :: markStepInList stepId rest

/-- `plant.isActive = !plant.isActive` (`plantController.ts:240`). -/
def togglePlant (p : Plant) : Plant :=
  { p with isActive := !p.isActive }

/-- Hex-digit test used by ObjectId validity. -/
def isHexDigit (c : Char) : Bool :=
  c.isDigit || ('a' ≤ c && c ≤ 'f') || ('A' ≤ c && c ≤ 'F')

/-- `Types.ObjectId.isValid` on a string id: a 24-character hex string,
or any 12-character string (the 12-byte form). -/
def isValidObjectId (s : String) : Bool :=
  (s.length = 24 && s.toList.all isHexDigit) || s.length = 12

/-- `Number(stepId)` on a route parameter, as far as the service uses
it: a non-empty all-digit string yields its decimal value; anything
else is taken as `none` (NaN or a non-positive number, which matches no
step id since ids are positive). -/
def jsNumberNat (s : String) : Option Nat :=
  if s ≠ "" && s.toList.all Char.isDigit then
    some (s.toList.foldl (fun a c => a * 10 + (c.toNat - 48)) 0)
  else none

/-- A persisted user document (`src/models/User.ts`): the Firebase uid,
the email, and the ordered list of owned plant ObjectId references. -/
structure UserRec where
  firebaseUid : String
  email : String
  plants : List String
deriving Repr, DecidableEq

/-- The document store visible to the handlers: the `users` and
`plants` collections, plant ids modelled as strings. -/
structure ServiceState where
  users : List UserRec
  plants : List (String × Plant)
deriving Repr, DecidableEq

/-- `User.findOne({ firebaseUid, plants: id })`: the first user with
this Firebase uid whose `plants` array contains the id. -/
def findOwner (st : ServiceState) (uid pid : String) : Option UserRec :=
  st.users.find? (fun u => u.firebaseUid = uid && u.plants.contains pid)

/-- `Plant.findById(id)` over the store. -/
def findPlant (st : ServiceState) (pid : String) : Option Plant :=
  ((st.plants.find? (fun e => e.1 = pid)).map (fun e => e.2))

/-- Replace the plant stored under `pid` (the effect of
`plant.save()` after an in-memory mutation). -/
def updatePlant (st : ServiceState) (pid : String) (p : Plant) : ServiceState :=
  { st with plants := st.plants.map (fun e => if e.1 = pid then (pid, p) else e) }

/-- An HTTP outcome: status code and the `message` field of the JSON
body. -/
structure HttpResp where
  status : Nat
  message : String
deriving Repr, DecidableEq

/-- `GET /api/plants/:id` (`getPlantDetail`,
`plantController.ts:339-393`): authentication, id presence, ObjectId
format (400 on failure), ownership (403), existence (404), success
(200); a pure read, the store is unchanged. -/
def getPlantDetail (st : ServiceState) (principal : Option String) (id : String) : HttpResp :=
  match principal with
  | none => ⟨401, "User not authenticated"⟩
  | some uid =>
    if id = "" then ⟨400, "Plant ID is required"⟩
    else if !(isValidObjectId id) then ⟨400, "Invalid plant ID format"⟩
    else
      match findOwner st uid id with
      | none => ⟨403, "Not authorized to view this plant"⟩
      | some _ =>
        match findPlant st id with
        | none => ⟨404, "Plant not found"⟩
        | some _ => ⟨200, "Plant details retrieved successfully"⟩

/-- `PATCH /api/plants/:id/activate` (`togglePlantActiveStatus`,
`plantController.ts:208-254`). There is no explicit format check here:
`new Types.ObjectId(id)` throws on an invalid id and the catch block
answers 500. Returns the response and the resulting store. -/
def togglePlantActiveStatus (st : ServiceState) (principal : Option String)
    (id : String) : HttpResp × ServiceState :=
  match principal with
  | none => (⟨401, "User not authenticated"⟩, st)
  | some uid =>
    if id = "" then (⟨400, "Plant ID is required"⟩, st)
    else if !(isValidObjectId id) then (⟨500, "Error toggling plant active status"⟩, st)
    else
      match findOwner st uid id with
      | none => (⟨403, "Not authorized to modify this plant"⟩, st)
      | some _ =>
        match findPlant st id with
        | none => (⟨404, "Plant not found"⟩, st)
        | some p =>
          (⟨200, if !p.isActive then "Plant activated successfully"
                 else "Plant deactivated successfully"⟩,
           updatePlant st id (togglePlant p))

/-- `PATCH /api/plants/:plantId/steps/:stepId/complete`
(`markStepAsCompleted`, `plantController.ts:284-337`): parameter
presence (400), ownership via `User.findOne` (403; an invalid ObjectId
makes the lookup throw, answered 500), plant existence (404), step
lookup by `s.id === Number(stepId)` (404), then the single-step
mutation. -/
def markStepAsCompleted (st : ServiceState) (principal : Option String)
    (plantId stepId : String) : HttpResp × ServiceState :=
  match principal with
  | none => (⟨401, "User not authenticated"⟩, st)
  | some uid =>
    if plantId = "" || stepId = "" then
      (⟨400, "Plant ID and Step ID are required"⟩, st)
    else if !(isValidObjectId plantId) then
      (⟨500, "Error marking step as completed"⟩, st)
    else
      match findOwner st uid plantId with
      | none => (⟨403, "Not authorized to modify this plant"⟩, st)
      | some _ =>
        match findPlant st plantId with
        | none => (⟨404, "Plant not found"⟩, st)
        | some p =>
          match jsNumberNat stepId with
          | none => (⟨404, "Step not found"⟩, st)
          | some n =>
            if p.steps.any (fun s => s.id = n) then
              (⟨200, "Step marked as completed"⟩,
               updatePlant st plantId { p with steps := markStepInList n p.steps })
            else (⟨404, "Step not found"⟩, st)

/-- Outcome of the guard stages of `POST /api/plants/:plantId/diagnose`
(`analyzePlantImage`, `plantController.ts:395-442`): either an error
response produced before the AI call, or the plant the handler goes on
to diagnose. -/
inductive DiagnoseGuardOutcome where
  | errResp : HttpResp → DiagnoseGuardOutcome
  | proceed : Plant → DiagnoseGuardOutcome
deriving Repr, DecidableEq

/-- The guard stages of `analyzePlantImage`
(`plantController.ts:401-442`), in source order: authentication, plant
id presence, image presence, ObjectId format, ownership, existence. -/
def analyzePlantImageGuard (st : ServiceState) (principal : Option String)
    (plantId : String) (imagePresent : Bool) : DiagnoseGuardOutcome :=
  match principal with
  | none => .errResp ⟨401, "User not authenticated"⟩
  | some uid =>
    if plantId = "" then .errResp ⟨400, "Plant ID is required"⟩
    else if !imagePresent then .errResp ⟨400, "Image data is required"⟩
    else if !(isValidObjectId plantId) then .errResp ⟨400, "Invalid plant ID format"⟩
    else
      match findOwner st uid plantId with
      | none => .errResp ⟨403, "Not authorized to analyze this plant"⟩
      | some _ =>
        match findPlant st plantId with
        | none => .errResp ⟨404, "Plant not found"⟩
        | some p => .proceed p

/-- Result of the custom-plant controller from the point where the AI
response text has been through `JSON.parse`: the HTTP outcome plus the
list of plant documents the call persisted. -/
structure CustomResult where
  status : Nat
  message : String
  error : Option Json
  saved : List Plant

/-- The custom-plant plan document built at the end of
`getCustomPlantRecommendation` (lines 142-153). The survey fields the
controller passes along are not part of the `Plant` schema and are
dropped by Mongoose; `isValid` is the (truthy, hence cast to `true`)
parsed sentinel. Returns `none` when `steps` is not an array. -/
def buildCustomPlant (rec : Json) : Option Plant :=
  ((rec.get "steps").bind Json.asArray).map (fun steps =>
    { plantName := jsTrim (jsToStringOpt (rec.get "name"))
      description := jsTrim (jsToStringOpt (rec.get "description"))
      successRate := jsTrim (jsToStringOpt (rec.get "successRate"))
      steps := processSteps steps
      difficultyLevel := jsTrim (jsToStringOpt (rec.get "difficultyLevel"))
      isValid := true
      isActive := false })

/-- `POST /api/plants/custom` (`getCustomPlantRecommendation`) from the
parsed response onward (lines 104-160 of the controller):
`typeof`-object check (a primitive, and also `null` at the member
access, ends as a rethrown parse failure → 422), the `isValid` sentinel
short-circuit (400, before field validation), field validation (the
thrown generic message contains "parse" once rethrown → 422),
step processing and the save (200). A non-array `steps` field throws
outside the inner try/catch and falls to the generic 500. -/
def getCustomPlantRecommendation (parsed : Json) : CustomResult :=
  match parsed with
  | .jnum _ | .jstr _ | .jbool _ =>
    { status := 422, message := "Failed to parse Gemini response. The response format was invalid."
      error := none, saved := [] }
  | .jnull =>
    { status := 422, message := "Failed to parse Gemini response. The response format was invalid."
      error := none, saved := [] }
  | rec =>
    if !(jsTruthy (rec.get "isValid")) then
      { status := 400, message := "Invalid plant name"
        error := some (if jsTruthy (rec.get "error") then
                         (rec.get "error").getD .jnull
                       else .jstr "Please provide a valid plant name")
        saved := [] }
    else if !(jsTruthy (rec.get "name")) || !(jsTruthy (rec.get "description")) ||
            !(jsTruthy (rec.get "successRate")) || !(jsTruthy (rec.get "steps")) ||
            !(jsTruthy (rec.get "difficultyLevel")) then
      { status := 422, message := "Failed to parse Gemini response. The response format was invalid."
        error := none, saved := [] }
    else
      match buildCustomPlant rec with
      | none =>
        { status := 500, message := "Error creating custom plant", error := none, saved := [] }
      | some p =>
        { status := 200, message := "Custom plant created successfully", error := none, saved := [p] }

/-- The persistence effect of a successful custom-plant save
(`getCustomPlantRecommendation` lines 142-160): `plant.save()` stores
the document under a fresh id; no user document is read or written
anywhere in the controller. -/
def customPlantSave (st : ServiceState) (newId : String) (p : Plant) : ServiceState :=
  { st with plants := st.plants ++ [(newId, p)] }

/-- A saved bulk-recommendation document, restricted to the fields the
aggregation inspects (`src/models/PlantRecommendation.ts`). -/
structure PlantRecommendationDoc where
  plantName : String
  successRate : String
deriving Repr, DecidableEq

/-- JavaScript `parseInt(s)` with default radix: skip leading
whitespace, an optional sign, then the maximal run of decimal digits;
`none` models NaN (no digits at all). -/
def parseIntJS (s : String) : Option Int :=
  let core : List Char → Option Int := fun ds =>
    let digits := ds.takeWhile Char.isDigit
    if digits = [] then none
    else some (digits.foldl (fun a c => a * 10 + ((c.toNat - 48 : Nat) : Int)) 0)
  match s.toList.dropWhile Char.isWhitespace with
  | '-' :: rest => (core rest).map (fun n => -n)
  | '+' :: rest => core rest
  | cs => core cs

/-- The sort comparator of `plantRecommendationController.ts:147-151`:
`parseInt(b.successRate) - parseInt(a.successRate)`. When either rate
is NaN the subtraction is NaN, which `Array.prototype.sort` treats like
`0` (the pair compares as equal and keeps its relative order). -/
def rateCmp (a b : PlantRecommendationDoc) : Int :=
  match parseIntJS a.successRate, parseIntJS b.successRate with
  | some ra, some rb => rb - ra
  | _, _ => 0

/-- Insertion step of a stable comparator sort: `x` is placed before
the first element it does not compare strictly greater than. -/
def insertCmp (c : α → α → Int) (x : α) : List α → List α
  | [] => [x]
  | y :: ys => if c x y ≤ 0 then x :: y :: ys else y :: insertCmp c x ys

/-- Stable comparator sort modelling `Array.prototype.sort` (stable per
ECMAScript 2019). For a consistent comparator every stable sort yields
the same list, so this insertion sort is a faithful model there; on a
two-element array it also agrees with any real engine for arbitrary
comparators, since exactly one comparison decides the result. -/
def sortCmp (c : α → α → Int) : List α → List α
  | [] => []
  | x :: xs => insertCmp c x (sortCmp c xs)

/-- The aggregation of `plantRecommendationController.ts:146-152`:
sort the saved documents with `rateCmp` and keep the first 5. -/
def topRecommendations (saved : List PlantRecommendationDoc) : List PlantRecommendationDoc :=
  (sortCmp rateCmp saved).take 5

/-- The greedy regex scan `text.match(/\[[\s\S]*\]/)`
(`plantController.ts:102`): the span from the first `[` to the last
`]`, provided the `]` comes after the `[`; `none` otherwise. -/
def extractArraySpan (cs : List Char) : Option (List Char) :=
  let i := (cs.takeWhile (fun c => c ≠ '[')).length
  let k := (cs.reverse.takeWhile (fun c => c ≠ ']')).length
  if i + k + 1 ≤ cs.length then some ((cs.drop i).take (cs.length - k - i))
  else none

/-- Drop one optional leading newline (the `\n?` of the fence regexes). -/
def dropOptNewline : List Char → List Char
  | '\n' :: r => r
  | r => r

/-- One global replace pass `.replace(/<tok>\n?/g, '')`: scan left to
right, removing each non-overlapping occurrence of `tok0 :: tok`
together with one optional following newline. Structured over a fuel
argument for structural recursion; every step consumes at least one
character, so with `fuel = cs.length` (as `stripFences` passes) the
fuel is never exhausted and the scan is the full left-to-right pass. -/
def stripFenceTok (tok0 : Char) (tok : List Char) : Nat → List Char → List Char
  | 0, cs => cs
  | _ + 1, [] => []
  | fuel + 1, c :: rest =>
    if c = tok0 && tok.isPrefixOf rest then
      stripFenceTok tok0 tok fuel (dropOptNewline (rest.drop tok.length))
    else c :: stripFenceTok tok0 tok fuel rest

/-- The backtick character, written by code point. -/
def tick : Char := Char.ofNat 96

/-- The fence stripping of `plantController.ts:107-109`: the two
sequential global passes over the extracted span, first removing
occurrences of three backticks followed by `json` (plus optional
newline), then occurrences of three backticks (plus optional newline). -/
def stripFences (cs : List Char) : List Char :=
  stripFenceTok tick [tick, tick] cs.length
    (stripFenceTok tick [tick, tick, 'j', 's', 'o', 'n'] cs.length cs)

/-- The array-extraction stage of the growth-plan parser
(`plantController.ts:102-110`): greedy bracket span, fence stripping,
trim. `none` models the thrown `"No JSON array found in response"`. -/
def extractJsonArrayText (text : String) : Option String :=
  (extractArraySpan text.toList).map (fun span => String.mk (trimChars (stripFences span)))

/-- Parsed success rate of a saved recommendation, with NaN read as 0;
used only to state sortedness of the aggregation result. -/
def rateOf (d : PlantRecommendationDoc) : Int :=
  (parseIntJS d.successRate).getD 0

/-- Fixture: a candidate recommendation missing only its `name`. -/
def recNoName : Json :=
  Json.jobj [("description", Json.jstr "d"), ("successRate", Json.jstr "80%"),
    ("steps", Json.jarr [Json.jobj []]), ("difficultyLevel", Json.jstr "easy"),
    ("imageUrl", Json.jstr "u")]

/-- Fixture: an otherwise-valid candidate whose single step carries the
falsy field values `title: 0` and `estimatedTime: false`. -/
def recZeroStep : Json :=
  Json.jobj [("name", Json.jstr "Basil"), ("description", Json.jstr "d"),
    ("successRate", Json.jstr "80%"),
    ("steps", Json.jarr [Json.jobj [("title", Json.jnum 0),
      ("description", Json.jstr "water"), ("estimatedTime", Json.jbool false)]]),
    ("difficultyLevel", Json.jstr "easy"), ("imageUrl", Json.jstr "u")]

/-- Fixture: a well-formed 24-character hex plant id. -/
def pidA : String := "aaaaaaaaaaaaaaaaaaaaaaaa"

/-- Fixture: a second well-formed 24-character hex plant id. -/
def pidB : String := "bbbbbbbbbbbbbbbbbbbbbbbb"

/-- Fixture step list: steps 1 and 2 completed, step 3 pending. -/
def stepsFix : List GrowthStep :=
  [⟨1, "s1", "d1", "1w", true⟩, ⟨2, "s2", "d2", "1w", true⟩, ⟨3, "s3", "d3", "1w", false⟩]

/-- Fixture plant owning `stepsFix`. -/
def plantFix : Plant :=
  { plantName := "Basil", description := "d", successRate := "80%",
    steps := stepsFix, difficultyLevel := "easy", isValid := true, isActive := false }

/-- Fixture: two freshly generated remediation steps. -/
def rawFix : List RawTreatmentStep := [⟨"t1", "td1", "2d"⟩, ⟨"t2", "td2", "3d"⟩]

/-- Fixture store: user `u1` owns `pidA`, and that plant exists. -/
def stFix : ServiceState :=
  { users := [{ firebaseUid := "u1", email := "e@x", plants := [pidA] }],
    plants := [(pidA, plantFix)] }

/-- Fixture: an AI reply whose prose after the fenced array contains a
closing square bracket. -/
def textFix : String := "Here: ```json\n[1, 2]\n``` see the [note] too"

/-- The characters of the opening markdown fence with the `json` tag,
followed by a newline. -/
def fenceOpen : List Char := [tick, tick, tick, 'j', 's', 'o', 'n', '\n']

/-- The characters of a newline followed by the closing markdown
fence. -/
def fenceClose : List Char := ['\n', tick, tick, tick]

/-! ## Claim theorems -/

/-- C4 (amended): whenever any one required candidate field (`name`,
`description`, `successRate`, `steps`, `difficultyLevel`, `imageUrl`)
is missing or falsy, validation fails — but always with the single
generic message `"Missing required fields in recommendation"`, which
names no field; there is no field-specific `MissingField` error. -/
theorem c4_missing_field_generic (rec : Json) (f : String)
    (hf : f ∈ ["name", "description", "successRate", "steps", "difficultyLevel", "imageUrl"])
    (hmiss : jsTruthy (rec.get f) = false) :
    validateRecommendation rec = some missingFieldsMsg
    ∧ ∀ g ∈ ["name", "description", "successRate", "steps", "difficultyLevel", "imageUrl"],
        ¬ List.IsInfix g.toList missingFieldsMsg.toList := by
  refine ⟨?_, by decide⟩
  unfold validateRecommendation
  fin_cases hf <;> simp_all

/-- Witness for C4 at the fixture missing only `name`. -/
theorem c4_missing_field_generic_witness :
    validateRecommendation recNoName = some missingFieldsMsg :=
  (c4_missing_field_generic recNoName "name" (by simp) (by rfl)).1

/-- Counterexample to C4 as stated: the fixture missing only `name`
fails with the generic message, which does not contain the text
`name`, so no error names the absent field. -/
theorem c4_counterexample :
    validateRecommendation recNoName = some missingFieldsMsg
    ∧ ¬ List.IsInfix "name".toList missingFieldsMsg.toList :=
  ⟨rfl, by decide⟩

/-- C8 (amended): top-level plan fields are `String(...)`-coerced and
trimmed whatever the JSON type of the source value (with `0 ↦ "0"` and
`false ↦ "false"`), but step-level fields pass through the `|| ''`
default first: a falsy step field value (`0`, `false`, `null`, `""` or
missing) becomes the empty string, and only truthy step values are
coerced to their textual form and trimmed. -/
theorem c8_coercion_and_trim :
    (∀ (i : Nat) (st : Json) (v : Json), st.get "title" = some v →
        (processStep i st).title = (if v.truthy then jsTrim v.jsToString else ""))
    ∧ (∀ (rec : Json) (p : Plant), buildPlant rec = some p →
        p.plantName = jsTrim (jsToStringOpt (rec.get "name"))
        ∧ p.description = jsTrim (jsToStringOpt (rec.get "description"))
        ∧ p.successRate = jsTrim (jsToStringOpt (rec.get "successRate"))
        ∧ p.difficultyLevel = jsTrim (jsToStringOpt (rec.get "difficultyLevel")))
    ∧ (Json.jnum 0).jsToString = "0"
    ∧ (Json.jbool false).jsToString = "false" := by
  refine ⟨?_, ?_, rfl, rfl⟩
  · intro i st v h
    unfold processStep jsOrEmpty
    rw [h]
    by_cases hv : v.truthy
    · simp [hv]
    · simp only [hv, Bool.false_eq_true, if_false]
      rfl
  · intro rec p hp
    unfold buildPlant at hp
    cases hs : (rec.get "steps").bind Json.asArray with
    | none => rw [hs] at hp; exact absurd hp (by simp)
    | some steps =>
      rw [hs] at hp
      rw [Option.map_some', Option.some_inj] at hp
      subst hp
      exact ⟨rfl, rfl, rfl, rfl⟩

/-- Witness for C8: the step-field clause applied at `title: 0`. -/
theorem c8_coercion_and_trim_witness :
    (processStep 0 (Json.jobj [("title", Json.jnum 0)])).title
      = (if (Json.jnum 0).truthy then jsTrim (Json.jnum 0).jsToString else "") :=
  c8_coercion_and_trim.1 0 (Json.jobj [("title", Json.jnum 0)]) (Json.jnum 0) rfl

/-- Counterexample to C8 as stated: the accepted fixture whose step has
`title: 0` and `estimatedTime: false` stores the step texts `""`, not
`"0"` and `"false"`. -/
theorem c8_counterexample :
    (buildPlant recZeroStep).map (fun p => p.steps.map (fun s => (s.title, s.estimatedTime)))
      = some [("", "")]
    ∧ validateRecommendation recZeroStep = none :=
  ⟨rfl, rfl⟩

/-- C7 (confirmed): a parsed single-object response carrying the
explicit sentinel `isValid: false` short-circuits field validation (no
other field need be present), answers 400 `"Invalid plant name"`
carrying the supplied rejection reason, and persists no plan record. -/
theorem c7_invalid_sentinel (fields : List (String × Json)) (e : String)
    (hval : (Json.jobj fields).get "isValid" = some (Json.jbool false))
    (herr : (Json.jobj fields).get "error" = some (Json.jstr e))
    (he : e ≠ "") :
    (getCustomPlantRecommendation (Json.jobj fields)).status = 400
    ∧ (getCustomPlantRecommendation (Json.jobj fields)).message = "Invalid plant name"
    ∧ (getCustomPlantRecommendation (Json.jobj fields)).error = some (Json.jstr e)
    ∧ (getCustomPlantRecommendation (Json.jobj fields)).saved = [] := by
  unfold getCustomPlantRecommendation
  simp [hval, herr, jsTruthy, Json.truthy, he]

/-- Witness for C7: the sentinel object carrying only `isValid: false`
and a reason is rejected with 400 and persists nothing. -/
theorem c7_invalid_sentinel_witness :
    (getCustomPlantRecommendation (Json.jobj [("isValid", Json.jbool false),
        ("error", Json.jstr "Not a real plant")])).status = 400
    ∧ (getCustomPlantRecommendation (Json.jobj [("isValid", Json.jbool false),
        ("error", Json.jstr "Not a real plant")])).saved = [] := by
  have h := c7_invalid_sentinel
    [("isValid", Json.jbool false), ("error", Json.jstr "Not a real plant")]
    "Not a real plant" rfl rfl (by decide)
  exact ⟨h.1, h.2.2.2⟩

/-- C2 (amended): the detail endpoint checks authentication first, id
presence and well-formedness second — but an ill-formed id is answered
400 (a validation failure), not NotFound — ownership third (403 even
when the record is absent), existence fourth (404), and answers 200 on
an owned, present plant. -/
theorem c2_detail_check_order (st : ServiceState) (uid id : String) :
    (getPlantDetail st none id = ⟨401, "User not authenticated"⟩)
    ∧ (id ≠ "" → isValidObjectId id = false →
        getPlantDetail st (some uid) id = ⟨400, "Invalid plant ID format"⟩)
    ∧ (isValidObjectId id = true → findOwner st uid id = none →
        getPlantDetail st (some uid) id = ⟨403, "Not authorized to view this plant"⟩)
    ∧ (isValidObjectId id = true → (findOwner st uid id).isSome → findPlant st id = none →
        getPlantDetail st (some uid) id = ⟨404, "Plant not found"⟩)
    ∧ (isValidObjectId id = true → (findOwner st uid id).isSome → (findPlant st id).isSome →
        getPlantDetail st (some uid) id = ⟨200, "Plant details retrieved successfully"⟩) := by
  have hne : isValidObjectId id = true → id ≠ "" := by
    intro hv he
    rw [he] at hv
    exact absurd hv (by decide)
  refine ⟨rfl, ?_, ?_, ?_, ?_⟩
  · intro h1 h2
    unfold getPlantDetail
    simp [h1, h2]
  · intro hv hown
    unfold getPlantDetail
    simp [hne hv, hv, hown]
  · intro hv hown habs
    obtain ⟨u, hu⟩ := Option.isSome_iff_exists.mp hown
    unfold getPlantDetail
    simp [hne hv, hv, hu, habs]
  · intro hv hown hpres
    obtain ⟨u, hu⟩ := Option.isSome_iff_exists.mp hown
    obtain ⟨q, hq⟩ := Option.isSome_iff_exists.mp hpres
    unfold getPlantDetail
    simp [hne hv, hv, hu, hq]

/-- Witness for C2: an authenticated non-owner of the fixture plant is
answered 403 on a well-formed id, even though the record exists. -/
theorem c2_detail_check_order_witness :
    getPlantDetail stFix (some "u2") pidA = ⟨403, "Not authorized to view this plant"⟩ :=
  (c2_detail_check_order stFix "u2" pidA).2.2.1 (by decide) (by decide)

/-- Counterexample to C2 as stated: under an authenticated principal, a
syntactically invalid plant id is answered 400 `"Invalid plant ID
format"`, not NotFound 404 as the claim requires. -/
theorem c2_counterexample :
    getPlantDetail stFix (some "u1") "zzz" = ⟨400, "Invalid plant ID format"⟩
    ∧ (getPlantDetail stFix (some "u1") "zzz").status ≠ 404 :=
  ⟨by decide, by decide⟩

/-- C6 (confirmed): for the per-plant mutating operations (step
completion and activation toggle), a principal whose plants reference
set does not contain the target id is denied 403 and the store is left
entirely unchanged, while a principal whose set contains it is never
answered 403 — for both request verbs. -/
theorem c6_ownership_guard (st : ServiceState) (uid pid sid : String)
    (hpid : isValidObjectId pid = true) (hsid : sid ≠ "") :
    (findOwner st uid pid = none →
        markStepAsCompleted st (some uid) pid sid
          = (⟨403, "Not authorized to modify this plant"⟩, st)
        ∧ togglePlantActiveStatus st (some uid) pid
          = (⟨403, "Not authorized to modify this plant"⟩, st))
    ∧ ((findOwner st uid pid).isSome →
        (markStepAsCompleted st (some uid) pid sid).1.status ≠ 403
        ∧ (togglePlantActiveStatus st (some uid) pid).1.status ≠ 403) := by
  have hne : pid ≠ "" := by
    intro he
    rw [he] at hpid
    exact absurd hpid (by decide)
  constructor
  · intro hown
    constructor
    · unfold markStepAsCompleted
      simp [hne, hsid, hpid, hown]
    · unfold togglePlantActiveStatus
      simp [hne, hpid, hown]
  · intro hown
    obtain ⟨u, hu⟩ := Option.isSome_iff_exists.mp hown
    constructor
    · unfold markStepAsCompleted
      simp only [hu]
      simp [hne, hsid, hpid]
      cases hp : findPlant st pid with
      | none => simp
      | some p =>
        cases hn : jsNumberNat sid with
        | none => simp
        | some n =>
          by_cases hstep : ∃ x ∈ p.steps, x.id = n <;> simp [hstep]
    · unfold togglePlantActiveStatus
      simp only [hu]
      simp [hne, hpid]
      cases hp : findPlant st pid with
      | none => simp
      | some p => simp

/-- Witness for C6: the non-owner `u2` is denied with the store
unchanged, while the owner `u1` is not answered 403, at the fixture. -/
theorem c6_ownership_guard_witness :
    markStepAsCompleted stFix (some "u2") pidA "2"
      = (⟨403, "Not authorized to modify this plant"⟩, stFix)
    ∧ (markStepAsCompleted stFix (some "u1") pidA "2").1.status ≠ 403 :=
  ⟨((c6_ownership_guard stFix "u2" pidA "2" (by decide) (by decide)).1 (by decide)).1,
   ((c6_ownership_guard stFix "u1" pidA "2" (by decide) (by decide)).2 (by decide)).1⟩

/-- C10 (confirmed): the custom-plant save writes no user document, so
the freshly stored plan is referenced by no user's plants set, and
every ownership-checked per-plant operation on it — detail read,
activation toggle, step completion, and the diagnosis guard — is
denied 403 for every principal. -/
theorem c10_custom_plant_orphaned (st : ServiceState) (newId : String) (p : Plant)
    (hvalid : isValidObjectId newId = true)
    (hfresh : ∀ u ∈ st.users, newId ∉ u.plants) :
    (customPlantSave st newId p).users = st.users
    ∧ (∀ uid : String,
        getPlantDetail (customPlantSave st newId p) (some uid) newId
          = ⟨403, "Not authorized to view this plant"⟩)
    ∧ (∀ uid : String,
        (togglePlantActiveStatus (customPlantSave st newId p) (some uid) newId).1
          = ⟨403, "Not authorized to modify this plant"⟩)
    ∧ (∀ uid sid : String, sid ≠ "" →
        (markStepAsCompleted (customPlantSave st newId p) (some uid) newId sid).1
          = ⟨403, "Not authorized to modify this plant"⟩)
    ∧ (∀ uid : String,
        analyzePlantImageGuard (customPlantSave st newId p) (some uid) newId true
          = .errResp ⟨403, "Not authorized to analyze this plant"⟩) := by
  have hne : newId ≠ "" := by
    intro he
    rw [he] at hvalid
    exact absurd hvalid (by decide)
  have hown : ∀ uid, findOwner (customPlantSave st newId p) uid newId = none := by
    intro uid
    apply List.find?_eq_none.mpr
    intro u hu
    have humem : u ∈ st.users := by simpa [customPlantSave] using hu
    simp [hfresh u humem]
  refine ⟨rfl, ?_, ?_, ?_, ?_⟩
  · intro uid
    unfold getPlantDetail
    simp [hne, hvalid, hown uid]
  · intro uid
    unfold togglePlantActiveStatus
    simp [hne, hvalid, hown uid]
  · intro uid sid hsid
    unfold markStepAsCompleted
    simp [hne, hsid, hvalid, hown uid]
  · intro uid
    unfold analyzePlantImageGuard
    simp [hne, hvalid, hown uid]

/-- Witness for C10: after the custom save at the fixture store, even
the only existing user is denied the detail read of the new plant. -/
theorem c10_custom_plant_orphaned_witness :
    getPlantDetail (customPlantSave stFix pidB plantFix) (some "u1") pidB
      = ⟨403, "Not authorized to view this plant"⟩ :=
  ((c10_custom_plant_orphaned stFix pidB plantFix (by decide) (by decide)).2.1) "u1"

/-- Helper: the single-step mutation keeps the list length. -/
theorem markStepInList_length (n : Nat) :
    ∀ steps : List GrowthStep, (markStepInList n steps).length = steps.length
  | [] => rfl
  | s :: rest => by
    unfold markStepInList
    by_cases h : s.id = n
    · simp [h]
    · simp [h, markStepInList_length n rest]

/-- Helper: the single-step mutation never resets a completed flag at
any position. -/
theorem markStepInList_get? (n : Nat) :
    ∀ (steps : List GrowthStep) (i : Nat) (t : GrowthStep),
      steps[i]? = some t → t.isCompleted = true →
      ∃ t2, (markStepInList n steps)[i]? = some t2 ∧ t2.isCompleted = true := by
  intro steps
  induction steps with
  | nil => intro i t h; simp at h
  | cons s rest ih =>
    intro i t h hc
    unfold markStepInList
    by_cases hid : s.id = n
    · rw [if_pos hid]
      cases i with
      | zero =>
        refine ⟨{ s with isCompleted := true }, by simp, rfl⟩
      | succ j =>
        simp only [List.getElem?_cons_succ] at h ⊢
        exact ⟨t, h, hc⟩
    · rw [if_neg hid]
      cases i with
      | zero =>
        simp only [List.getElem?_cons_zero, Option.some_inj] at h ⊢
        exact ⟨s, rfl, by rw [h]; exact hc⟩
      | succ j =>
        simp only [List.getElem?_cons_succ] at h ⊢
        exact ih j t h hc

/-- Helper: unfolding of the treatment-step construction on a cons. -/
theorem mkTreatmentSteps_cons (n : Nat) (r : RawTreatmentStep) (rest : List RawTreatmentStep) :
    mkTreatmentSteps n (r :: rest)
      = ⟨n + 1, r.title, r.description, r.estimatedTime, false⟩ :: mkTreatmentSteps (n + 1) rest := by
  unfold mkTreatmentSteps
  rw [List.mapIdx_cons]
  congr 1
  congr 1
  funext i q
  simp
  omega

/-- Helper: ids of the freshly generated treatment block continue the
previous length: `oldLen + 1, oldLen + 2, ...`. -/
theorem mkTreatmentSteps_ids :
    ∀ (raw : List RawTreatmentStep) (n : Nat),
      (mkTreatmentSteps n raw).map (fun t => t.id) = List.range' (n + 1) raw.length
  | [], n => by simp [mkTreatmentSteps]
  | r :: rest, n => by
    rw [mkTreatmentSteps_cons, List.map_cons, mkTreatmentSteps_ids rest (n + 1)]
    simp [List.range'_succ]

/-- Helper: every freshly generated treatment step starts
not-completed. -/
theorem mkTreatmentSteps_isCompleted (n : Nat) (raw : List RawTreatmentStep)
    (t : GrowthStep) (ht : t ∈ mkTreatmentSteps n raw) : t.isCompleted = false := by
  unfold mkTreatmentSteps at ht
  rw [List.mem_mapIdx] at ht
  obtain ⟨i, hi, heq⟩ := ht
  rw [← heq]

/-- C9 (confirmed): `isCompleted` is monotonic across the in-scope
operations — completing one step never resets another step's flag,
toggling activation leaves the step list untouched, and every step that
survives a diagnosis update is either an unchanged original step object
or a fresh step — and every freshly inserted step starts with
`isCompleted = false`. -/
theorem c9_isCompleted_monotonic :
    (∀ (n : Nat) (steps : List GrowthStep) (i : Nat) (t : GrowthStep),
        steps[i]? = some t → t.isCompleted = true →
        ∃ t2, (markStepInList n steps)[i]? = some t2 ∧ t2.isCompleted = true)
    ∧ (∀ p : Plant, (togglePlant p).steps = p.steps)
    ∧ (∀ (steps : List GrowthStep) (raw : List RawTreatmentStep) (t : GrowthStep),
        t ∈ diagnoseMergeSteps steps raw → t ∈ steps ∨ t.isCompleted = false)
    ∧ (∀ (n : Nat) (raw : List RawTreatmentStep) (t : GrowthStep),
        t ∈ mkTreatmentSteps n raw → t.isCompleted = false) := by
  refine ⟨markStepInList_get?, fun p => rfl, ?_, mkTreatmentSteps_isCompleted⟩
  intro steps raw t ht
  unfold diagnoseMergeSteps at ht
  rcases List.mem_append.mp ht with hl | hr
  · exact Or.inl (List.mem_of_mem_take hl)
  · exact Or.inr (mkTreatmentSteps_isCompleted _ _ t hr)

/-- Witness for C9 at the fixture: position 0 stays completed after
completing step 2, and the generated steps of a diagnosis start
not-completed. -/
theorem c9_isCompleted_monotonic_witness :
    (∃ t2, (markStepInList 2 stepsFix)[0]? = some t2 ∧ t2.isCompleted = true)
    ∧ ∀ t ∈ mkTreatmentSteps 3 rawFix, t.isCompleted = false :=
  ⟨c9_isCompleted_monotonic.1 2 stepsFix 0 ⟨1, "s1", "d1", "1w", true⟩ (by decide) (by decide),
   fun t ht => c9_isCompleted_monotonic.2.2.2 3 rawFix t ht⟩

/-- C1 (amended): when the step list has a last completed step `s` (at
position `pre.length`, carrying its creation-time positional id
`pre.length + 1`), the diagnosis update keeps the prefix up to and
including `s` unchanged — ids of retained steps are untouched — and
inserts the freshly generated remediation steps immediately after `s`,
numbered consecutively from the full previous list length plus one, all
starting not-completed; however, every step after the last completed
one is discarded rather than retained. -/
theorem c1_diagnose_insert (pre post : List GrowthStep) (s : GrowthStep)
    (raw : List RawTreatmentStep)
    (hs : s.isCompleted = true)
    (hpost : ∀ t ∈ post, t.isCompleted = false)
    (hid : s.id = pre.length + 1) :
    diagnoseMergeSteps (pre ++ s :: post) raw
      = (pre ++ [s]) ++ mkTreatmentSteps (pre ++ s :: post).length raw
    ∧ (mkTreatmentSteps (pre ++ s :: post).length raw).map (fun t => t.id)
      = List.range' ((pre ++ s :: post).length + 1) raw.length
    ∧ ∀ t ∈ mkTreatmentSteps (pre ++ s :: post).length raw, t.isCompleted = false := by
  have hlast : lastCompletedStep (pre ++ s :: post) = some s := by
    unfold lastCompletedStep
    rw [List.reverse_append, List.find?_append]
    have h1 : List.find? (fun t => t.isCompleted) (s :: post).reverse = some s := by
      rw [List.reverse_cons, List.find?_append]
      have hnone : List.find? (fun t => t.isCompleted) post.reverse = none :=
        List.find?_eq_none.mpr (fun x hx => by simp [hpost x (List.mem_reverse.mp hx)])
      rw [hnone]
      simp [hs]
    rw [h1]
    simp
  refine ⟨?_, mkTreatmentSteps_ids raw _, fun t ht => mkTreatmentSteps_isCompleted _ _ t ht⟩
  unfold diagnoseMergeSteps
  simp only [hlast]
  rw [hid]
  congr 1
  rw [show pre ++ s :: post = (pre ++ [s]) ++ post by simp,
      show pre.length + 1 = (pre ++ [s]).length by simp,
      List.take_left]

/-- Witness for C1 at the fixture list `[1:done, 2:done, 3:pending]`. -/
theorem c1_diagnose_insert_witness :
    diagnoseMergeSteps stepsFix rawFix
      = ([⟨1, "s1", "d1", "1w", true⟩] ++ [⟨2, "s2", "d2", "1w", true⟩])
        ++ mkTreatmentSteps stepsFix.length rawFix :=
  (c1_diagnose_insert [⟨1, "s1", "d1", "1w", true⟩] [⟨3, "s3", "d3", "1w", false⟩]
    ⟨2, "s2", "d2", "1w", true⟩ rawFix rfl (by decide) rfl).1

/-- Counterexample to C1 as stated: for the fixture steps
`[1:done, 2:done, 3:pending]` and 2 new remediation steps, the result
carries ids `[1, 2, 4, 5]` — the new block is numbered 4 and 5, but no
step with id 3 remains: the pending step 3 is discarded. -/
theorem c1_counterexample :
    (diagnoseMergeSteps stepsFix rawFix).map (fun s => s.id) = [1, 2, 4, 5]
    ∧ ∀ t ∈ diagnoseMergeSteps stepsFix rawFix, t.id ≠ 3 := by
  constructor
  · rfl
  · decide

/-- Helper: inserting with the comparator is a permutation of
prepending. -/
theorem insertCmp_perm (c : α → α → Int) (x : α) :
    ∀ l : List α, (insertCmp c x l).Perm (x :: l)
  | [] => List.Perm.refl _
  | y :: ys => by
    unfold insertCmp
    by_cases h : c x y ≤ 0
    · rw [if_pos h]
    · rw [if_neg h]
      exact (List.Perm.cons y (insertCmp_perm c x ys)).trans (List.Perm.swap x y ys)

/-- Helper: the comparator sort is a permutation of its input. -/
theorem sortCmp_perm (c : α → α → Int) :
    ∀ l : List α, (sortCmp c l).Perm l
  | [] => List.Perm.refl _
  | x :: xs =>
    (insertCmp_perm c x (sortCmp c xs)).trans (List.Perm.cons x (sortCmp_perm c xs))

/-- Helper: insertion preserves sortedness of the comparator order on
elements satisfying `P`, given totality and transitivity there. -/
theorem insertCmp_pairwise (c : α → α → Int) (P : α → Prop)
    (htot : ∀ a b, P a → P b → ¬ c a b ≤ 0 → c b a ≤ 0)
    (htrans : ∀ a b d, P a → P b → P d → c a b ≤ 0 → c b d ≤ 0 → c a d ≤ 0)
    (x : α) (hx : P x) :
    ∀ l : List α, (∀ y ∈ l, P y) →
      List.Pairwise (fun a b => c a b ≤ 0) l →
      List.Pairwise (fun a b => c a b ≤ 0) (insertCmp c x l)
  | [], _, _ => by simp [insertCmp]
  | y :: ys, hP, hp => by
    unfold insertCmp
    obtain ⟨h1, h2⟩ := List.pairwise_cons.mp hp
    by_cases h : c x y ≤ 0
    · rw [if_pos h]
      refine List.Pairwise.cons ?_ hp
      intro z hz
      rcases List.mem_cons.mp hz with rfl | hzys
      · exact h
      · exact htrans x y z hx (hP y (by simp)) (hP z (by simp [hzys])) h (h1 z hzys)
    · rw [if_neg h]
      have hyx : c y x ≤ 0 := htot x y hx (hP y (by simp)) h
      refine List.Pairwise.cons ?_
        (insertCmp_pairwise c P htot htrans x hx ys (fun z hz => hP z (by simp [hz])) h2)
      intro z hz
      rcases List.mem_cons.mp ((insertCmp_perm c x ys).mem_iff.mp hz) with rfl | hzys
      · exact hyx
      · exact h1 z hzys

/-- Helper: the comparator sort is sorted on elements satisfying `P`. -/
theorem sortCmp_pairwise (c : α → α → Int) (P : α → Prop)
    (htot : ∀ a b, P a → P b → ¬ c a b ≤ 0 → c b a ≤ 0)
    (htrans : ∀ a b d, P a → P b → P d → c a b ≤ 0 → c b d ≤ 0 → c a d ≤ 0) :
    ∀ l : List α, (∀ y ∈ l, P y) →
      List.Pairwise (fun a b => c a b ≤ 0) (sortCmp c l)
  | [], _ => by simp [sortCmp]
  | x :: xs, hP => by
    unfold sortCmp
    refine insertCmp_pairwise c P htot htrans x (hP x (by simp)) (sortCmp c xs)
      (fun y hy => hP y (by simp [(sortCmp_perm c xs).mem_iff.mp hy]))
      (sortCmp_pairwise c P htot htrans xs (fun y hy => hP y (by simp [hy])))

/-- Helper: stability of insertion on one filter class — when elements
of the class never compare strictly after each other, the class keeps
its order. -/
theorem insertCmp_filter (c : α → α → Int) (q : α → Bool) (x : α) :
    ∀ l : List α, (∀ y ∈ l, q x = true → q y = true → c x y ≤ 0) →
      (insertCmp c x l).filter q = List.filter q (x :: l)
  | [], _ => rfl
  | y :: ys, hq => by
    unfold insertCmp
    by_cases h : c x y ≤ 0
    · rw [if_pos h]
    · rw [if_neg h]
      have hrec := insertCmp_filter c q x ys (fun z hz => hq z (by simp [hz]))
      by_cases hqx : q x = true
      · have hqy : q y = false := by
          rcases Bool.eq_false_or_eq_true (q y) with ht | hf
          · exact absurd (hq y (by simp) hqx ht) h
          · exact hf
        simp [List.filter_cons, hqy, hqx, hrec]
      · simp [List.filter_cons, hqx, hrec]

/-- Helper: stability of the comparator sort on one filter class. -/
theorem sortCmp_filter (c : α → α → Int) (q : α → Bool)
    (hcomp : ∀ a b, q a = true → q b = true → c a b ≤ 0) :
    ∀ l : List α, (sortCmp c l).filter q = l.filter q
  | [] => rfl
  | x :: xs => by
    unfold sortCmp
    rw [insertCmp_filter c q x (sortCmp c xs) (fun z _ hqx hqz => hcomp x z hqx hqz),
        List.filter_cons, List.filter_cons, sortCmp_filter c q hcomp xs]

/-- C3 (amended): the aggregation output is the 5-truncation of the
stable comparator sort: it never exceeds 5 entries; plans with equal
parsed rates keep their original insertion order (the sorted list
filters to the input's filter on every rate class); and when every
plan's successRate has a parsable leading integer, the output is sorted
descending by that integer. A plan with an unparsable successRate,
however, compares NaN-equal to every neighbour and keeps the position
the sort leaves it in — it does not sort as lowest. -/
theorem c3_aggregator (saved : List PlantRecommendationDoc)
    (hall : ∀ d ∈ saved, (parseIntJS d.successRate).isSome) :
    (topRecommendations saved).length ≤ 5
    ∧ topRecommendations saved = (sortCmp rateCmp saved).take 5
    ∧ (∀ k : Int, (sortCmp rateCmp saved).filter
          (fun d => parseIntJS d.successRate == some k)
        = saved.filter (fun d => parseIntJS d.successRate == some k))
    ∧ List.Pairwise (fun a b => rateOf b ≤ rateOf a) (topRecommendations saved) := by
  refine ⟨?_, rfl, ?_, ?_⟩
  · unfold topRecommendations
    rw [List.length_take]
    omega
  · intro k
    apply sortCmp_filter
    intro a b hqa hqb
    have ha : parseIntJS a.successRate = some k := by
      have := beq_iff_eq.mp hqa
      exact this
    have hb : parseIntJS b.successRate = some k := beq_iff_eq.mp hqb
    unfold rateCmp
    rw [ha, hb]
    simp
  · have hsorted : List.Pairwise (fun a b => rateCmp a b ≤ 0) (sortCmp rateCmp saved) := by
      apply sortCmp_pairwise rateCmp (fun d => (parseIntJS d.successRate).isSome)
      · intro a b hpa hpb hab
        obtain ⟨ra, hra⟩ := Option.isSome_iff_exists.mp hpa
        obtain ⟨rb, hrb⟩ := Option.isSome_iff_exists.mp hpb
        unfold rateCmp at hab ⊢
        rw [hra, hrb] at hab ⊢
        dsimp only at hab ⊢
        omega
      · intro a b d hpa hpb hpd hab hbd
        obtain ⟨ra, hra⟩ := Option.isSome_iff_exists.mp hpa
        obtain ⟨rb, hrb⟩ := Option.isSome_iff_exists.mp hpb
        obtain ⟨rd, hrd⟩ := Option.isSome_iff_exists.mp hpd
        unfold rateCmp at hab hbd ⊢
        rw [hra, hrb] at hab
        rw [hrb, hrd] at hbd
        rw [hra, hrd]
        dsimp only at hab hbd ⊢
        omega
      · exact hall
    have hmem : ∀ d ∈ sortCmp rateCmp saved, (parseIntJS d.successRate).isSome := by
      intro d hd
      exact hall d ((sortCmp_perm rateCmp saved).mem_iff.mp hd)
    have hpair : List.Pairwise (fun a b => rateOf b ≤ rateOf a) (sortCmp rateCmp saved) := by
      refine List.Pairwise.imp_of_mem ?_ hsorted
      intro a b hamem hbmem hab
      obtain ⟨ra, hra⟩ := Option.isSome_iff_exists.mp (hmem a hamem)
      obtain ⟨rb, hrb⟩ := Option.isSome_iff_exists.mp (hmem b hbmem)
      unfold rateCmp at hab
      rw [hra, hrb] at hab
      dsimp only at hab
      unfold rateOf
      rw [hra, hrb]
      simpa using hab
    exact hpair.sublist (List.take_sublist 5 _)

/-- Witness for C3: the fully parsable 4-plan batch is returned as the
truncated sort and is descending, with the tied 50% pair in input
order. -/
theorem c3_aggregator_witness :
    topRecommendations [⟨"A", "10%"⟩, ⟨"B", "90%"⟩, ⟨"C", "50%"⟩, ⟨"D", "50%"⟩]
      = (sortCmp rateCmp [⟨"A", "10%"⟩, ⟨"B", "90%"⟩, ⟨"C", "50%"⟩, ⟨"D", "50%"⟩]).take 5
    ∧ List.Pairwise (fun a b => rateOf b ≤ rateOf a)
        (topRecommendations [⟨"A", "10%"⟩, ⟨"B", "90%"⟩, ⟨"C", "50%"⟩, ⟨"D", "50%"⟩]) :=
  ⟨(c3_aggregator [⟨"A", "10%"⟩, ⟨"B", "90%"⟩, ⟨"C", "50%"⟩, ⟨"D", "50%"⟩] (by decide)).2.1,
   (c3_aggregator [⟨"A", "10%"⟩, ⟨"B", "90%"⟩, ⟨"C", "50%"⟩, ⟨"D", "50%"⟩] (by decide)).2.2.2⟩

/-- Counterexample to C3 as stated: a plan whose successRate has no
parsable leading integer does not sort as lowest — the NaN comparison
keeps it in place, here ahead of a parsable 50% plan. -/
theorem c3_counterexample :
    topRecommendations [⟨"A", "unknown"⟩, ⟨"B", "50%"⟩]
      = [⟨"A", "unknown"⟩, ⟨"B", "50%"⟩]
    ∧ parseIntJS "unknown" = none
    ∧ parseIntJS "50%" = some 50 :=
  ⟨rfl, rfl, rfl⟩

/-- Helper: `takeWhile` passes over a prefix that fully satisfies the
predicate. -/
theorem takeWhile_all_append (p : α → Bool) (xs ys : List α)
    (h : ∀ x ∈ xs, p x = true) :
    List.takeWhile p (xs ++ ys) = xs ++ List.takeWhile p ys := by
  rw [List.takeWhile_append, List.takeWhile_eq_self_iff.mpr h, if_pos rfl]

/-- Helper: the element at the length of the `takeWhile` prefix, when
inside the list, falsifies the predicate. -/
theorem getElem?_length_takeWhile (p : α → Bool) :
    ∀ cs : List α, (cs.takeWhile p).length < cs.length →
      ∃ a, cs[(cs.takeWhile p).length]? = some a ∧ p a = false
  | [], h => by simp at h
  | c :: rest, h => by
    rw [List.takeWhile_cons] at h ⊢
    by_cases hc : p c = true
    · rw [if_pos hc] at h ⊢
      simp only [List.length_cons, Nat.add_lt_add_iff_right] at h
      have := getElem?_length_takeWhile p rest h
      simpa using this
    · rw [if_neg hc] at h ⊢
      exact ⟨c, by simp, by simpa using hc⟩

/-- Helper: the greedy span scan on prose-wrapped text whose prose has
no stray brackets returns exactly the bracketed payload. -/
theorem extractArraySpan_append (pre arr post t1 t2 : List Char)
    (hpre : ∀ c ∈ pre, c ≠ '[')
    (hpost : ∀ c ∈ post, c ≠ ']')
    (hhead : arr = '[' :: t1)
    (hlast : arr.reverse = ']' :: t2) :
    extractArraySpan (pre ++ arr ++ post) = some arr := by
  have hi : ((pre ++ arr ++ post).takeWhile (fun c => c ≠ '[')).length = pre.length := by
    rw [List.append_assoc,
        takeWhile_all_append _ pre _ (fun x hx => by simpa using hpre x hx)]
    rw [hhead, List.cons_append, List.takeWhile_cons, if_neg (by simp)]
    simp
  have hk : ((pre ++ arr ++ post).reverse.takeWhile (fun c => c ≠ ']')).length
      = post.length := by
    rw [List.reverse_append, List.reverse_append,
        takeWhile_all_append _ post.reverse _
          (fun x hx => by simpa using hpost x (List.mem_reverse.mp hx))]
    rw [hlast, List.cons_append, List.takeWhile_cons, if_neg (by simp)]
    simp
  have hlen : (pre ++ arr ++ post).length = pre.length + (arr.length + post.length) := by
    simp
  have harr : 1 ≤ arr.length := by
    rw [hhead]
    simp
  unfold extractArraySpan
  dsimp only
  rw [hi, hk, if_pos (by omega)]
  congr 1
  rw [List.append_assoc, List.drop_left,
      show (pre ++ (arr ++ post)).length = pre.length + (arr.length + post.length) by simp,
      show pre.length + (arr.length + post.length) - post.length - pre.length = arr.length
        by omega,
      List.take_left]

/-- Helper: a replace pass for a token starting with a character absent
from the text leaves it unchanged (at any fuel). -/
theorem stripFenceTok_of_not_mem (tok0 : Char) (tok : List Char) :
    ∀ (fuel : Nat) (cs : List Char), (∀ c ∈ cs, c ≠ tok0) →
      stripFenceTok tok0 tok fuel cs = cs
  | 0, cs, _ => rfl
  | _ + 1, [], _ => rfl
  | fuel + 1, c :: rest, h => by
    unfold stripFenceTok
    rw [if_neg (by simp [h c (by simp)])]
    rw [stripFenceTok_of_not_mem tok0 tok fuel rest (fun x hx => h x (by simp [hx]))]

/-- Helper: fence stripping leaves a backtick-free text unchanged. -/
theorem stripFences_of_no_tick (cs : List Char) (h : ∀ c ∈ cs, c ≠ tick) :
    stripFences cs = cs := by
  unfold stripFences
  rw [stripFenceTok_of_not_mem _ _ _ cs h, stripFenceTok_of_not_mem _ _ _ cs h]

/-- Helper: trimming leaves a text unchanged when it starts with `[`
and ends with `]`. -/
theorem trimChars_bracket (arr t1 t2 : List Char)
    (h1 : arr = '[' :: t1) (h2 : arr.reverse = ']' :: t2) :
    trimChars arr = arr := by
  have e1 : List.dropWhile Char.isWhitespace arr = arr := by
    conv_lhs => rw [h1]
    rw [List.dropWhile_cons, if_neg (by decide)]
    exact h1.symm
  have e2 : List.dropWhile Char.isWhitespace arr.reverse = arr.reverse := by
    conv_lhs => rw [h2]
    rw [List.dropWhile_cons, if_neg (by decide)]
    exact h2.symm
  unfold trimChars
  rw [e1, e2, List.reverse_reverse]

/-- C5 (amended): when the prose before the fenced array contains no
`[`, the prose after it contains no `]`, and the array text itself has
no backtick, the growth-plan parser extracts exactly the array text,
ignoring the fences and the prose; and whenever no `[`...`]` span
exists anywhere in the text, extraction fails (the thrown
`"No JSON array found in response"`). For arbitrary prose the greedy
scan can instead capture prose — see the counterexample. -/
theorem c5_parser_extraction (p1 p2 t1 t2 arr : List Char)
    (hp1 : ∀ c ∈ p1, c ≠ '[')
    (hp2 : ∀ c ∈ p2, c ≠ ']')
    (hhead : arr = '[' :: t1)
    (hlast : arr.reverse = ']' :: t2)
    (htick : ∀ c ∈ arr, c ≠ tick) :
    extractJsonArrayText (String.mk (p1 ++ fenceOpen ++ arr ++ fenceClose ++ p2))
      = some (String.mk arr)
    ∧ ∀ s : String,
        (∀ i j : Nat, i < j → s.toList[i]? = some '[' → s.toList[j]? = some ']' → False) →
        extractJsonArrayText s = none := by
  constructor
  · unfold extractJsonArrayText
    have hspan : extractArraySpan
        (String.mk (p1 ++ fenceOpen ++ arr ++ fenceClose ++ p2)).toList = some arr := by
      show extractArraySpan (p1 ++ fenceOpen ++ arr ++ fenceClose ++ p2) = some arr
      rw [show p1 ++ fenceOpen ++ arr ++ fenceClose ++ p2
            = (p1 ++ fenceOpen) ++ arr ++ (fenceClose ++ p2) by simp]
      refine extractArraySpan_append (p1 ++ fenceOpen) arr (fenceClose ++ p2) t1 t2
        ?_ ?_ hhead hlast
      · have hfo : ∀ c ∈ fenceOpen, c ≠ '[' := by decide
        intro c hc
        rcases List.mem_append.mp hc with h | h
        · exact hp1 c h
        · exact hfo c h
      · have hfc : ∀ c ∈ fenceClose, c ≠ ']' := by decide
        intro c hc
        rcases List.mem_append.mp hc with h | h
        · exact hfc c h
        · exact hp2 c h
    rw [hspan, Option.map_some', stripFences_of_no_tick arr htick,
        trimChars_bracket arr t1 t2 hhead hlast]
  · intro s hnone
    unfold extractJsonArrayText
    cases hspan : extractArraySpan s.toList with
    | none => rfl
    | some span =>
      exfalso
      unfold extractArraySpan at hspan
      dsimp only at hspan
      by_cases hcond :
          (s.toList.takeWhile (fun c => c ≠ '[')).length
            + (s.toList.reverse.takeWhile (fun c => c ≠ ']')).length + 1 ≤ s.toList.length
      · have hi : (s.toList.takeWhile (fun c => c ≠ '[')).length < s.toList.length := by
          omega
        obtain ⟨a, ha, hpa⟩ := getElem?_length_takeWhile _ s.toList hi
        have ha2 : a = '[' := by simpa using hpa
        have hk0 : (s.toList.reverse.takeWhile (fun c => c ≠ ']')).length
            < s.toList.length := by omega
        have hk : (s.toList.reverse.takeWhile (fun c => c ≠ ']')).length
            < s.toList.reverse.length := by simpa using hk0
        obtain ⟨b, hb, hpb⟩ := getElem?_length_takeWhile _ s.toList.reverse hk
        have hb2 : b = ']' := by simpa using hpb
        rw [List.getElem?_reverse hk0] at hb
        rcases Nat.lt_or_ge (s.toList.takeWhile (fun c => c ≠ '[')).length
            (s.toList.length - 1
              - (s.toList.reverse.takeWhile (fun c => c ≠ ']')).length) with hlt | hge
        · exact hnone _ _ hlt (ha2 ▸ ha) (hb2 ▸ hb)
        · have heq : (s.toList.takeWhile (fun c => c ≠ '[')).length
              = s.toList.length - 1
                - (s.toList.reverse.takeWhile (fun c => c ≠ ']')).length := by omega
          rw [← heq] at hb
          have hab : a = b := Option.some.inj (ha.symm.trans hb)
          rw [ha2, hb2] at hab
          exact absurd hab (by decide)
      · rw [if_neg hcond] at hspan
        exact absurd hspan (by simp)

/-- Witness for C5: bracket-free prose around a fenced `[1, 2]` is
stripped away exactly. -/
theorem c5_parser_extraction_witness :
    extractJsonArrayText (String.mk ("Sure! ".toList ++ fenceOpen
      ++ "[1, 2]".toList ++ fenceClose ++ " enjoy".toList))
      = some (String.mk "[1, 2]".toList) :=
  (c5_parser_extraction "Sure! ".toList " enjoy".toList "1, 2]".toList "2 ,1[".toList
    "[1, 2]".toList (by decide) (by decide) (by decide) (by decide) (by decide)).1

/-- Counterexample to C5 as stated: with arbitrary prose — here prose
containing `[note]` after the fenced array — the greedy scan captures
prose into the extracted text, which is not the array `[1, 2]`. -/
theorem c5_counterexample :
    extractJsonArrayText textFix = some "[1, 2]\n see the [note]"
    ∧ extractJsonArrayText textFix ≠ some "[1, 2]" :=
  ⟨rfl, by decide⟩
